import Mathlib

/-!
Verification development for the dynamic-scraper API (src/app.py).

The Python source is shallowly embedded: a parsed HTML document is a
forest of nodes (mirroring the BeautifulSoup parse tree consumed through
find / find_all / get_text / get), the structure analyzer, page-schema
generator, endpoint-id derivation, endpoint registry and extraction
executor are translated function by function, and the external
collaborators (HTTP fetch, CSS-selector matching, the regex text-node
matcher, the inference service) are passed in as function parameters, as
the specification itself treats them as external interfaces.  The
functools.lru_cache decorator on analyze_page_structure is modelled by
an explicit most-recently-used-first association list with capacity 100,
following the documented semantics of the decorator.  Python dictionaries
are modelled as insertion-ordered association lists, Python exceptions as
an explicit error type threaded through Except.
-/

/- Parse-tree node: either a text node or an element with a tag name, an
attribute list (raw attribute strings, as parsed) and children.  A mutual
pair is used instead of a nested List so that all recursions are
structural and reduce in the kernel. -/
mutual
inductive Node where
  | textNode (s : String)
  | elem (tag : String) (attrs : List (String × String)) (children : NodeList)
inductive NodeList where
  | nil
  | cons (head : Node) (tail : NodeList)
end

/-- Build a NodeList from a plain list (used to write concrete documents). -/
def NodeList.ofList : List Node → NodeList
  | [] => .nil
  | n :: t => .cons n (NodeList.ofList t)

/-- A parsed document is the forest of top-level nodes (the soup object). -/
abbrev Doc := NodeList

mutual
/-- Tag.get_text(): concatenation of all descendant strings, document order. -/
def Node.getText : Node → String
  | .textNode s => s
  | .elem _ _ cs => NodeList.getText cs
def NodeList.getText : NodeList → String
  | .nil => ""
  | .cons n t => n.getText ++ NodeList.getText t
end

mutual
/-- Matching elements inside one node, the node itself included, preorder
(document order), mirroring how find_all walks descendants. -/
def Node.findAllIn (p : Node → Bool) : Node → List Node
  | .textNode _ => []
  | .elem t a cs =>
    (if p (.elem t a cs) then [Node.elem t a cs] else []) ++ NodeList.findAll p cs
/-- soup.find_all(...) over a forest, document order. -/
def NodeList.findAll (p : Node → Bool) : NodeList → List Node
  | .nil => []
  | .cons n t => Node.findAllIn p n ++ NodeList.findAll p t
end

/-- Children of a node (empty for text nodes). -/
def Node.children : Node → NodeList
  | .textNode _ => .nil
  | .elem _ _ cs => cs

/-- Tag name of a node (text nodes have none; they never match tag queries). -/
def Node.tagName : Node → String
  | .textNode _ => ""
  | .elem t _ _ => t

/-- Whether the node is an element with the given tag. -/
def Node.tagIs (n : Node) (t : String) : Bool :=
  match n with
  | .elem tg _ _ => tg == t
  | .textNode _ => false

/-- Tag.get(attr): the raw attribute string, None when the attribute is
absent.  (The multi-valued treatment bs4 gives the class attribute is
modelled by Node.classes below.) -/
def Node.attrGet (n : Node) (a : String) : Option String :=
  match n with
  | .elem _ attrs _ => (attrs.find? (fun p => p.1 == a)).map (fun p => p.2)
  | .textNode _ => none

/-- Class tokens of an element: the class attribute split on spaces, as
bs4 presents element.get(class) as a token list. -/
def Node.classes (n : Node) : List String :=
  match n.attrGet "class" with
  | some s => (s.splitOn " ").filter (fun x => x ≠ "")
  | none => []

/-- element.find_all(...) searches descendants only (self excluded). -/
def Node.findDescendants (p : Node → Bool) (n : Node) : List Node :=
  NodeList.findAll p n.children

/-- soup.find(...): first match in document order, None when absent. -/
def NodeList.findFirst (p : Node → Bool) (d : Doc) : Option Node :=
  (NodeList.findAll p d).head?

/-- Tag.string: the single string child, following a unique-child chain,
None as soon as the child count differs from one. -/
def Node.stringProp : Node → Option String
  | .textNode s => some s
  | .elem _ _ (.cons c .nil) => c.stringProp
  | .elem _ _ _ => none

/-- Python max(xs, key=k) over a nonempty list: keeps the first maximal
element (later elements replace the current best only when strictly
greater). -/
def pyMaxBy (k : Node → Nat) (x : Node) (xs : List Node) : Node :=
  xs.foldl (fun b a => if k a > k b then a else b) x

/-- Lines 37-46: _identify_main_content.  First an explicit main landmark
(tag main, then id main, then class main); otherwise the loop over
article/section/div overwrites main_content with the largest element of that tag whenever the tag has any occurrence, so the last nonempty tag
group wins.  Returns the text of the chosen element, None when nothing was
chosen. -/
def _identify_main_content (soup : Doc) : Option String :=
  let main_content :=
    ((NodeList.findFirst (fun n => n.tagIs "main") soup).orElse (fun _ =>
      NodeList.findFirst (fun n => n.attrGet "id" == some "main") soup)).orElse (fun _ =>
        NodeList.findFirst (fun n => (n.classes).contains "main") soup)
  let main_content :=
    match main_content with
    | some m => some m
    | none =>
      ["article", "section", "div"].foldl (fun acc tg =>
        match NodeList.findAll (fun n => n.tagIs tg) soup with
        | [] => acc
        | c :: cs => some (pyMaxBy (fun n => n.getText.length) c cs)) none
  main_content.map Node.getText

/-- One navigation link: anchor text and optional href. -/
structure NavLink where
  text : String
  href : Option String
deriving DecidableEq

/-- Lines 48-52: _extract_navigation.  First of a nav tag, an element
classed navigation, an element with id navigation; when found, its anchor
descendants as text/href pairs, document order. -/
def _extract_navigation (soup : Doc) : Option (List NavLink) :=
  let nav :=
    ((NodeList.findFirst (fun n => n.tagIs "nav") soup).orElse (fun _ =>
      NodeList.findFirst (fun n => (n.classes).contains "navigation") soup)).orElse (fun _ =>
        NodeList.findFirst (fun n => n.attrGet "id" == some "navigation") soup)
  nav.map (fun nv =>
    (Node.findDescendants (fun n => n.tagIs "a") nv).map (fun a =>
      { text := a.getText, href := a.attrGet "href" }))

/-- Per-class bucket of the schema: occurrence count and the first-seen
100-character text sample. -/
structure ElemInfo where
  count : Nat
  sample : String
deriving DecidableEq

/-- One list entry of the schema (key named kind for the source key type). -/
structure ListInfo where
  kind : String
  items_count : Nat
  sample : Option String
deriving DecidableEq

/-- One table entry of the schema; rows_count is an integer because the
source computes len(tr) - 1, which Python lets go negative. -/
structure TableInfo where
  headers : List String
  rows_count : Int
deriving DecidableEq

/-- PageSchema: classed-element buckets (insertion-ordered), lists, tables
and the never-filled forms placeholder. -/
structure PageSchema where
  elements : List (String × ElemInfo)
  lists : List ListInfo
  tables : List TableInfo
  forms : List Unit
deriving DecidableEq

/-- Python dict update for the elements buckets: an existing key is
updated in place (count incremented, first-seen sample kept), a new key
is appended, preserving insertion order. -/
def bumpClass (m : List (String × ElemInfo)) (c0 : String) (sample : String) :
    List (String × ElemInfo) :=
  match m with
  | [] => [(c0, { count := 1, sample := sample })]
  | p :: t =>
    if p.1 == c0 then (p.1, { count := p.2.count + 1, sample := p.2.sample }) :: t
    else p :: bumpClass t c0 sample

/-- Lines 54-86: _generate_page_schema.  One pass over classed elements
bucketed by first class token, one pass over ul/ol lists, one pass over
tables (all th texts; len(tr) - 1 when any header exists, len(tr)
otherwise). -/
def _generate_page_schema (soup : Doc) : PageSchema :=
  let elements :=
    (NodeList.findAll (fun n => !(n.classes).isEmpty) soup).foldl (fun m e =>
      match e.classes with
      | [] => m
      | c0 :: _ => bumpClass m c0 (e.getText.take 100)) []
  let lists :=
    (NodeList.findAll (fun n => n.tagIs "ul" || n.tagIs "ol") soup).map (fun ul =>
      { kind := ul.tagName
        items_count := (Node.findDescendants (fun n => n.tagIs "li") ul).length
        sample := ((Node.findDescendants (fun n => n.tagIs "li") ul).head?).map Node.getText })
  let tables :=
    (NodeList.findAll (fun n => n.tagIs "table") soup).map (fun tb =>
      let headers := (Node.findDescendants (fun n => n.tagIs "th") tb).map Node.getText
      { headers := headers
        rows_count :=
          if headers.isEmpty then
            ((Node.findDescendants (fun n => n.tagIs "tr") tb).length : Int)
          else ((Node.findDescendants (fun n => n.tagIs "tr") tb).length : Int) - 1 })
  { elements := elements, lists := lists, tables := tables, forms := [] }

/-- PageStructure as assembled by analyze_page_structure (lines 27-33). -/
structure PageStructure where
  title : Option String
  headings : List String
  main_content : Option String
  navigation : Option (List NavLink)
  schema : PageSchema
deriving DecidableEq

/-- Pure part of analyze_page_structure: the structure computed from a
parsed document. -/
def page_structure_of (soup : Doc) : PageStructure :=
  { title := (NodeList.findFirst (fun n => n.tagIs "title") soup).bind Node.stringProp
    headings :=
      (NodeList.findAll (fun n => n.tagIs "h1" || n.tagIs "h2" || n.tagIs "h3") soup).map
        Node.getText
    main_content := _identify_main_content soup
    navigation := _extract_navigation soup
    schema := _generate_page_schema soup }

/-- Python-style str.split with separator // over a character list, via a
fuel argument (fuel at least the string length) to keep the recursion
structural: leftmost non-overlapping occurrences cut the string, exactly
as url.split(...) does. -/
def splitDslashAux : Nat → List Char → List Char → List (List Char)
  | 0, acc, s => [acc.reverse ++ s]
  | _ + 1, acc, [] => [acc.reverse]
  | _ + 1, acc, [c] => [(c :: acc).reverse]
  | fuel + 1, acc, c :: c2 :: rest2 =>
    if c = '/' ∧ c2 = '/' then acc.reverse :: splitDslashAux fuel [] rest2
    else splitDslashAux fuel (c :: acc) (c2 :: rest2)

/-- url.split on the double slash. -/
def splitDslash (s : List Char) : List (List Char) :=
  splitDslashAux s.length [] s

/-- re.sub replacing every character outside a-z, A-Z, 0-9 with an
underscore, one character at a time. -/
def sanitizeChar (c : Char) : Char :=
  if ('a' ≤ c ∧ c ≤ 'z') ∨ ('A' ≤ c ∧ c ≤ 'Z') ∨ ('0' ≤ c ∧ c ≤ '9') then c else '_'

/-- Python exceptions reachable in the embedded code paths. -/
inductive PyErr where
  | valueError (msg : String)
  | typeError
  | keyError (k : String)
  | attributeError
  | indexError
  | fetchError
deriving DecidableEq

/-- Lines 142-145: _generate_endpoint_id.  url.split on the double slash,
piece [1] (IndexError when the split yields a single piece), characters
sanitized, then hash(query) reduced modulo 10000.  the per-process Python string hash is passed in as pyHash; the Python modulo on a positive
modulus is Int.emod. -/
def _generate_endpoint_id (pyHash : String → Int) (url query : String) :
    Except PyErr String :=
  match splitDslash url.data with
  | _ :: second :: _ =>
    let base := String.mk (second.map sanitizeChar)
    let query_hash := (pyHash query) % 10000
    .ok ("scrape_" ++ base ++ "_" ++ toString query_hash)
  | _ => .error .indexError

/-- JSON values, as produced by json.loads on the inference response. -/
inductive Json where
  | null
  | bool (b : Bool)
  | num (n : Int)
  | str (s : String)
  | arr (elems : List Json)
  | obj (fields : List (String × Json))

/-- Fixed parameters dict of every endpoint config (lines 106-109). -/
structure EndpointParams where
  format : String
  cache_timeout : Int

/-- EndpointConfig as stored in cached_schemas (lines 101-110).  The
selectors field holds whatever json.loads returned for the inference
response, stored as-is by line 103. -/
structure EndpointConfig where
  url : String
  selectors : Json
  query : String
  method : String
  parameters : EndpointParams

/-- Python dict assignment d[k] = v over an insertion-ordered association
list: replace the existing binding in place, else append. -/
def dictSet {α : Type} : List (String × α) → String → α → List (String × α)
  | [], k, v => [(k, v)]
  | p :: t, k, v => if p.1 == k then (k, v) :: t else p :: dictSet t k v

/-- Python dict lookup. -/
def dictGet {α : Type} (d : List (String × α)) (k : String) : Option α :=
  (d.find? (fun p => p.1 == k)).map (fun p => p.2)

/-- Lines 88-115: generate_api_endpoint, with the external steps factored
out as inputs: the page fetch, the prompt round trip through the inference
service and json.loads are summarized by the already-parsed payload (the
routing and collaborator layers are outside the core).  The endpoint
config stores url, the parsed payload under selectors, query, method GET
and the fixed parameters; the id is derived from (url, query) and the
config is stored in the registry under it. -/
def generate_api_endpoint (pyHash : String → Int)
    (cached_schemas : List (String × EndpointConfig)) (url query : String)
    (payload : Json) :
    Except PyErr (String × EndpointConfig × List (String × EndpointConfig)) :=
  let endpoint_config : EndpointConfig :=
    { url := url, selectors := payload, query := query, method := "GET"
      parameters := { format := "json", cache_timeout := 3600 } }
  match _generate_endpoint_id pyHash url query with
  | .error e => .error e
  | .ok endpoint_id =>
    .ok (endpoint_id, endpoint_config, dictSet cached_schemas endpoint_id endpoint_config)

/-- Subscripting a Python object with a string key: dict lookup (KeyError
when missing), TypeError on every non-dict value. -/
def Json.subscript : Json → String → Except PyErr Json
  | .obj fs, k =>
    match fs.find? (fun p => p.1 == k) with
    | some p => .ok p.2
    | none => .error (.keyError k)
  | _, _ => .error .typeError

/-- Python iteration over a JSON value: a list yields its items, a dict
its keys, a string its characters; numbers, booleans and null are not
iterable. -/
def Json.pyIterate : Json → Except PyErr (List Json)
  | .arr xs => .ok xs
  | .obj fs => .ok (fs.map (fun p => Json.str p.1))
  | .str s => .ok (s.data.map (fun c => Json.str (String.mk [c])))
  | _ => .error .typeError

/-- Element matched by a selector: a tag (CSS branch) or a text node
(the regex text-match branch returns NavigableStrings). -/
inductive MatchedElem where
  | tagEl (n : Node)
  | strEl (s : String)

/-- get_text on a matched element; a NavigableString is its own text. -/
def MatchedElem.get_text : MatchedElem → String
  | .tagEl n => n.getText
  | .strEl s => s

/-- element.get(attr): attribute lookup on a tag; a NavigableString has
no get method, so the attribute branch raises AttributeError there. -/
def MatchedElem.getAttr : MatchedElem → String → Except PyErr (Option String)
  | .tagEl n, a => .ok (n.attrGet a)
  | .strEl _, _ => .error .attributeError

/-- One extraction result entry (line 169-172). -/
structure ExtractionEntry where
  kind : Json
  value : String

/-- Reading the value for one matched element (lines 163-166): a string
attribute field equal to text means trimmed get_text; any other string is
looked up on the element (AttributeError on a text node, which has no get
method); unhashable list/dict attribute keys raise TypeError; other
hashable non-string keys simply miss on a tag. -/
def extractValue (element : MatchedElem) (attrJ : Json) : Except PyErr (Option String) :=
  match attrJ with
  | .str a =>
    if a = "text" then .ok (some element.get_text.trim) else element.getAttr a
  | .arr _ => .error .typeError
  | .obj _ => .error .typeError
  | _ =>
    match element with
    | .tagEl _ => .ok none
    | .strEl _ => .error .attributeError

/-- Lines 168-172: append the entry only when the extracted value is
truthy (neither None nor the empty string), reading the description field
of the selector at append time. -/
def appendIfTruthy (selector : Json) (valueRes : Except PyErr (Option String)) :
    Except PyErr (Option ExtractionEntry) :=
  match valueRes with
  | .error e => .error e
  | .ok none => .ok none
  | .ok (some v) =>
    if v = "" then .ok none
    else
      match selector.subscript "description" with
      | .error e => .error e
      | .ok d => .ok (some { kind := d, value := v })

/-- Lines 162-172, one matched element: read the attribute field of the
selector, extract the value, append when truthy. -/
def processElement (selector : Json) (element : MatchedElem) :
    Except PyErr (Option ExtractionEntry) :=
  match selector.subscript "attribute" with
  | .error e => .error e
  | .ok attrJ => appendIfTruthy selector (extractValue element attrJ)

/-- Fold of processElement over the matched elements of one selector,
keeping the appended entries in order. -/
def collectEntries (selector : Json) : List MatchedElem → Except PyErr (List ExtractionEntry)
  | [] => .ok []
  | e :: t =>
    match processElement selector e with
    | .error er => .error er
    | .ok r =>
      match collectEntries selector t with
      | .error er => .error er
      | .ok rest =>
        match r with
        | some entry => .ok (entry :: rest)
        | none => .ok rest

/-- Element selection for one selector (lines 156-160): a type field
equal to css goes through the CSS-match collaborator (select), anything
else through the regex text-node matcher; both demand a string selector
field, raising TypeError otherwise. -/
def selectorElements (doc : Doc) (select : Doc → String → List Node)
    (textMatch : Doc → String → List String) (selector : Json) (t : Json) :
    Except PyErr (List MatchedElem) :=
  if (match t with | Json.str s => s == "css" | _ => false) then
    match selector.subscript "selector" with
    | .error e => .error e
    | .ok (.str s) => .ok ((select doc s).map MatchedElem.tagEl)
    | .ok _ => .error .typeError
  else
    match selector.subscript "selector" with
    | .error e => .error e
    | .ok (.str s) => .ok ((textMatch doc s).map MatchedElem.strEl)
    | .ok _ => .error .typeError

/-- Lines 156-172, one selector: read the type field, select the matched
elements, then the per-element loop. -/
def runSelector (doc : Doc) (select : Doc → String → List Node)
    (textMatch : Doc → String → List String) (selector : Json) :
    Except PyErr (List ExtractionEntry) :=
  match selector.subscript "type" with
  | .error e => .error e
  | .ok t =>
    match selectorElements doc select textMatch selector t with
    | .error e => .error e
    | .ok elements => collectEntries selector elements

/-- Selector loop of execute_scraping, accumulating results across
selectors in order. -/
def runSelectors (doc : Doc) (select : Doc → String → List Node)
    (textMatch : Doc → String → List String) :
    List Json → Except PyErr (List ExtractionEntry)
  | [] => .ok []
  | s :: t =>
    match runSelector doc select textMatch s with
    | .error e => .error e
    | .ok es =>
      match runSelectors doc select textMatch t with
      | .error e => .error e
      | .ok rest => .ok (es ++ rest)

/-- Lines 147-174: execute_scraping.  Registry lookup first (ValueError
on a miss, before any fetch), then a fresh fetch and parse of the config
url (the fetch collaborator is a parameter), then iteration over the
stored selectors value. -/
def execute_scraping (cached_schemas : List (String × EndpointConfig))
    (fetch : String → Except PyErr Doc) (select : Doc → String → List Node)
    (textMatch : Doc → String → List String) (endpoint_id : String) :
    Except PyErr (List ExtractionEntry) :=
  match dictGet cached_schemas endpoint_id with
  | none => .error (.valueError "Invalid endpoint ID")
  | some config =>
    match fetch config.url with
    | .error e => .error e
    | .ok doc =>
      match config.selectors.pyIterate with
      | .error e => .error e
      | .ok sels => runSelectors doc select textMatch sels

/-- Body of an HTTP response from the scrape route. -/
inductive RespBody where
  | results (entries : List ExtractionEntry)
  | errorMsg (msg : String)

/-- HTTP response: status code and JSON body. -/
structure HttpResponse where
  status : Nat
  body : RespBody

/-- Lines 201-207: the GET scrape route.  A ValueError from
execute_scraping becomes a 404 with the error text; every other exception
is uncaught and propagates out of the handler. -/
def scrape_endpoint (cached_schemas : List (String × EndpointConfig))
    (fetch : String → Except PyErr Doc) (select : Doc → String → List Node)
    (textMatch : Doc → String → List String) (endpoint_id : String) :
    Except PyErr HttpResponse :=
  match execute_scraping cached_schemas fetch select textMatch endpoint_id with
  | .ok results => .ok { status := 200, body := .results results }
  | .error (.valueError msg) => .ok { status := 404, body := .errorMsg msg }
  | .error e => .error e

/-- Cache state of the lru_cache decorator on analyze_page_structure:
most-recently-used first association list from url to PageStructure. -/
abbrev SchemaCache := List (String × PageStructure)

/-- Lookup of a cache slot. -/
def cacheFind (c : SchemaCache) (u : String) : Option (String × PageStructure) :=
  c.find? (fun p => p.1 == u)

/-- Lines 21-35: analyze_page_structure behind functools.lru_cache with
maxsize 100, keyed by the url argument alone.  A hit returns the cached
structure and moves the entry to the most-recent slot without fetching;
a miss fetches and parses the page (fetchParse), computes the structure,
inserts it most-recent and truncates to the 100-entry capacity (evicting
the least recently used entry only under capacity pressure).  The Bool
flag records whether an underlying fetch-and-parse happened. -/
def analyze_page_structure (fetchParse : String → Doc) (c : SchemaCache)
    (url : String) : PageStructure × SchemaCache × Bool :=
  match cacheFind c url with
  | some pv => (pv.2, (url, pv.2) :: c.filter (fun p => p.1 != url), false)
  | none =>
    let v := page_structure_of (fetchParse url)
    (v, ((url, v) :: c).take 100, true)

/-- Sequence of analyze_page_structure calls, threading the cache. -/
def runAnalyses (fetchParse : String → Doc) (c : SchemaCache)
    (urls : List String) : SchemaCache :=
  urls.foldl (fun c u => (analyze_page_structure fetchParse c u).2.1) c

/-- Modelled from the spec wording of claim C5 (the part of section 4.1
being checked): with no explicit main landmark, the main content is the
text of the largest-by-text-length element among the article, section and
div elements taken together in document order, first maximal element on
ties; absent when no such element exists or when the chosen text is
empty. -/
def claimedMainContent (soup : Doc) : Option String :=
  let landmark :=
    ((NodeList.findFirst (fun n => n.tagIs "main") soup).orElse (fun _ =>
      NodeList.findFirst (fun n => n.attrGet "id" == some "main") soup)).orElse (fun _ =>
        NodeList.findFirst (fun n => (n.classes).contains "main") soup)
  match landmark with
  | some m => some m.getText
  | none =>
    match NodeList.findAll
        (fun n => n.tagIs "article" || n.tagIs "section" || n.tagIs "div") soup with
    | [] => none
    | c :: cs =>
      let best := pyMaxBy (fun n => n.getText.length) c cs
      if best.getText = "" then none else some best.getText

/-- Characters after the first double slash (the url with its scheme
prefix removed, as the spec words the id derivation). -/
def dropScheme : List Char → List Char
  | '/' :: '/' :: rest => rest
  | _ :: rest => dropScheme rest
  | [] => []

/-- Modelled from the spec wording of claim C4 (section 4.4): the id is
scrape_, then the url with its scheme prefix removed and every character
outside the alphanumeric range replaced by an underscore, then the query
fingerprint reduced into 0-9999. -/
def claimedEndpointId (pyHash : String → Int) (url query : String) : String :=
  "scrape_" ++ String.mk ((dropScheme url.data).map sanitizeChar) ++ "_"
    ++ toString ((pyHash query) % 10000)

lemma splitDslashAux_no_sep : ∀ (fuel : Nat) (s acc : List Char), s.length ≤ fuel →
    ¬ (['/', '/'] <:+: s) → splitDslashAux fuel acc s = [acc.reverse ++ s] := by
  intro fuel
  induction fuel with
  | zero => intro s acc _ _; simp [splitDslashAux]
  | succ n ih =>
    intro s acc hlen h
    match s with
    | [] => simp [splitDslashAux]
    | [c] => simp [splitDslashAux]
    | c :: c2 :: rest2 =>
      rw [splitDslashAux]
      have hne : ¬ (c = '/' ∧ c2 = '/') := by
        rintro ⟨rfl, rfl⟩
        exact h ⟨[], rest2, rfl⟩
      rw [if_neg hne]
      have h2 : ¬ (['/', '/'] <:+: (c2 :: rest2)) := by
        intro hin
        obtain ⟨p, q, hpq⟩ := hin
        exact h ⟨c :: p, q, by simp [← hpq]⟩
      have hl2 : (c2 :: rest2).length ≤ n := by
        simpa using Nat.le_of_succ_le_succ hlen
      rw [ih (c2 :: rest2) (c :: acc) hl2 h2]
      simp

lemma splitDslash_no_sep (s : List Char) (h : ¬ (['/', '/'] <:+: s)) :
    splitDslash s = [s] := by
  rw [splitDslash, splitDslashAux_no_sep s.length s [] le_rfl h]
  simp

lemma dictGet_dictSet {α : Type} (d : List (String × α)) (k : String) (v : α) :
    dictGet (dictSet d k v) k = some v := by
  induction d with
  | nil => simp [dictSet, dictGet]
  | cons p t ih =>
    by_cases hp : p.1 = k
    · simp [dictSet, dictGet, hp]
    · simpa [dictSet, dictGet, hp] using ih

/-- C4 counterexample: for a url whose path itself contains a double
slash, the derived id is built from the piece between the first and
second double slash (url.split keeps splitting), not from the url with
its scheme prefix removed, so the claimed derivation disagrees with the
code at this input. -/
theorem endpoint_id_counterexample :
    _generate_endpoint_id (fun _ => 0) "http://a//b" "q" = .ok "scrape_a_0" ∧
    claimedEndpointId (fun _ => 0) "http://a//b" "q" = "scrape_a__b_0" ∧
    "scrape_a_0" ≠ "scrape_a__b_0" :=
  ⟨rfl, rfl, by decide⟩

/-- C4 amended: whenever splitting the url on the double slash yields at
least two pieces, the id is scrape_, then the second piece with every
character outside the alphanumeric ranges replaced by an underscore, then
the query fingerprint hash(query) mod 10000, which lies in 0-9999; for a
url containing the double slash exactly once the second piece is the url
with its scheme prefix removed, but a later double slash cuts the piece
short.  The derivation is a deterministic function of (url, query). -/
theorem endpoint_id_amended (pyHash : String → Int) (url query : String)
    (p0 p1 : List Char) (rest : List (List Char))
    (h : splitDslash url.data = p0 :: p1 :: rest) :
    _generate_endpoint_id pyHash url query =
      .ok ("scrape_" ++ String.mk (p1.map sanitizeChar) ++ "_"
        ++ toString ((pyHash query) % 10000)) ∧
    0 ≤ (pyHash query) % 10000 ∧ (pyHash query) % 10000 < 10000 ∧
    ∀ c ∈ p1.map sanitizeChar,
      ('a' ≤ c ∧ c ≤ 'z') ∨ ('A' ≤ c ∧ c ≤ 'Z') ∨ ('0' ≤ c ∧ c ≤ '9') ∨ c = '_' := by
  refine ⟨by rw [_generate_endpoint_id, h], ?_, ?_, ?_⟩
  · exact Int.emod_nonneg _ (by norm_num)
  · exact Int.emod_lt_of_pos _ (by norm_num)
  · intro c hc
    rw [List.mem_map] at hc
    obtain ⟨c0, _, rfl⟩ := hc
    rw [sanitizeChar]
    split
    · rename_i hin
      rcases hin with h1 | h2 | h3
      · exact Or.inl h1
      · exact Or.inr (Or.inl h2)
      · exact Or.inr (Or.inr (Or.inl h3))
    · exact Or.inr (Or.inr (Or.inr rfl))

/-- Witness for the amended C4 theorem at a concrete url, query and a
negative process hash (Python modulo keeps the fingerprint in range). -/
theorem endpoint_id_amended_witness :
    splitDslash "https://ex.com/p".data = ["https:".data, "ex.com/p".data] ∧
    (_generate_endpoint_id (fun _ => (-3 : Int)) "https://ex.com/p" "q" =
      .ok ("scrape_" ++ String.mk ("ex.com/p".data.map sanitizeChar) ++ "_"
        ++ toString (((-3 : Int)) % 10000)) ∧
    0 ≤ ((-3 : Int)) % 10000 ∧ ((-3 : Int)) % 10000 < 10000 ∧
    ∀ c ∈ "ex.com/p".data.map sanitizeChar,
      ('a' ≤ c ∧ c ≤ 'z') ∨ ('A' ≤ c ∧ c ≤ 'Z') ∨ ('0' ≤ c ∧ c ≤ '9') ∨ c = '_') :=
  ⟨by decide,
    endpoint_id_amended (fun _ => (-3 : Int)) "https://ex.com/p" "q"
      "https:".data "ex.com/p".data [] (by decide)⟩

/-- C10: a url with no double slash anywhere makes endpoint generation
fail with an IndexError inside id derivation (url.split on the double
slash yields a single piece and piece [1] does not exist), whatever the
inference payload, registry state and hash function are. -/
theorem generate_requires_scheme_separator (pyHash : String → Int)
    (reg : List (String × EndpointConfig)) (url query : String) (payload : Json)
    (h : ¬ (['/', '/'] <:+: url.data)) :
    generate_api_endpoint pyHash reg url query payload = .error .indexError := by
  have hid : _generate_endpoint_id pyHash url query = .error .indexError := by
    rw [_generate_endpoint_id, splitDslash_no_sep url.data h]
  simp [generate_api_endpoint, hid]

/-- Witness for C10 at a scheme-less url. -/
theorem generate_requires_scheme_separator_witness :
    ¬ (['/', '/'] <:+: "example.com".data) ∧
    generate_api_endpoint (fun _ => 0) [] "example.com" "q" Json.null =
      .error .indexError :=
  ⟨by decide,
    generate_requires_scheme_separator (fun _ => 0) [] "example.com" "q" Json.null
      (by decide)⟩

/-- C2: when generate_api_endpoint succeeds, resolving the returned id in
the returned registry yields exactly the stored config, whose url, query
and selectors fields are the registered inputs (the url, the query and
the parsed inference payload stored under selectors). -/
theorem register_resolve_roundtrip (pyHash : String → Int)
    (reg : List (String × EndpointConfig)) (url query : String) (payload : Json)
    (endpoint_id : String) (config : EndpointConfig)
    (reg2 : List (String × EndpointConfig))
    (h : generate_api_endpoint pyHash reg url query payload =
      .ok (endpoint_id, config, reg2)) :
    dictGet reg2 endpoint_id = some config ∧ config.url = url ∧
    config.query = query ∧ config.selectors = payload := by
  cases hid : _generate_endpoint_id pyHash url query with
  | error e => simp only [generate_api_endpoint, hid] at h; exact absurd h (by simp)
  | ok eid =>
    simp only [generate_api_endpoint, hid, Except.ok.injEq, Prod.mk.injEq] at h
    obtain ⟨h1, h2, h3⟩ := h
    subst h1; subst h2; subst h3
    exact ⟨dictGet_dictSet reg eid _, rfl, rfl, rfl⟩

/-- Concrete config produced by the C2 witness registration. -/
def cfgC2 : EndpointConfig :=
  { url := "http://e.com", selectors := Json.arr [], query := "q"
    method := "GET", parameters := { format := "json", cache_timeout := 3600 } }

/-- Witness for C2: a concrete registration followed by a resolve. -/
theorem register_resolve_roundtrip_witness :
    generate_api_endpoint (fun _ => 0) [] "http://e.com" "q" (Json.arr []) =
      .ok ("scrape_e_com_0", cfgC2, [("scrape_e_com_0", cfgC2)]) ∧
    (dictGet [("scrape_e_com_0", cfgC2)] "scrape_e_com_0" = some cfgC2 ∧
     cfgC2.url = "http://e.com" ∧ cfgC2.query = "q" ∧ cfgC2.selectors = Json.arr []) :=
  ⟨rfl, register_resolve_roundtrip (fun _ => 0) [] "http://e.com" "q" (Json.arr [])
    _ _ _ rfl⟩

/-- C3: for an id absent from the registry, execute_scraping fails with
the ValueError carrying the invalid-endpoint message whatever the fetch,
CSS-match and text-match collaborators are (hence before any fetch can
happen), and the GET scrape route maps exactly that error to a 404
response carrying the error message. -/
theorem unregistered_id_not_found (reg : List (String × EndpointConfig))
    (endpoint_id : String) (h : dictGet reg endpoint_id = none) :
    (∀ fetch select textMatch,
      execute_scraping reg fetch select textMatch endpoint_id =
        .error (.valueError "Invalid endpoint ID")) ∧
    (∀ fetch select textMatch,
      scrape_endpoint reg fetch select textMatch endpoint_id =
        .ok { status := 404, body := .errorMsg "Invalid endpoint ID" }) := by
  constructor
  · intro fetch select textMatch
    simp [execute_scraping, h]
  · intro fetch select textMatch
    simp [scrape_endpoint, execute_scraping, h]

/-- Witness for C3 on the empty registry. -/
theorem unregistered_id_not_found_witness :
    dictGet ([] : List (String × EndpointConfig)) "missing" = none ∧
    execute_scraping [] (fun _ => .ok .nil) (fun _ _ => []) (fun _ _ => []) "missing" =
      .error (.valueError "Invalid endpoint ID") ∧
    scrape_endpoint [] (fun _ => .ok .nil) (fun _ _ => []) (fun _ _ => []) "missing" =
      .ok { status := 404, body := .errorMsg "Invalid endpoint ID" } :=
  ⟨rfl,
    (unregistered_id_not_found [] "missing" rfl).1 _ _ _,
    (unregistered_id_not_found [] "missing" rfl).2 _ _ _⟩

/-- C9: a document with no classed element, no ul or ol and no table
produces a schema whose elements, lists and tables are all empty. -/
theorem schema_empty_when_plain (soup : Doc)
    (h1 : NodeList.findAll (fun n => !(n.classes).isEmpty) soup = [])
    (h2 : NodeList.findAll (fun n => n.tagIs "ul" || n.tagIs "ol") soup = [])
    (h3 : NodeList.findAll (fun n => n.tagIs "table") soup = []) :
    (_generate_page_schema soup).elements = [] ∧
    (_generate_page_schema soup).lists = [] ∧
    (_generate_page_schema soup).tables = [] := by
  refine ⟨?_, ?_, ?_⟩ <;> simp [_generate_page_schema, h1, h2, h3]

/-- Witness for C9 on a one-paragraph document. -/
theorem schema_empty_when_plain_witness :
    NodeList.findAll (fun n => !(n.classes).isEmpty)
      (.cons (.elem "p" [] (.cons (.textNode "hi") .nil)) .nil) = [] ∧
    NodeList.findAll (fun n => n.tagIs "ul" || n.tagIs "ol")
      (.cons (.elem "p" [] (.cons (.textNode "hi") .nil)) .nil) = [] ∧
    NodeList.findAll (fun n => n.tagIs "table")
      (.cons (.elem "p" [] (.cons (.textNode "hi") .nil)) .nil) = [] ∧
    ((_generate_page_schema (.cons (.elem "p" [] (.cons (.textNode "hi") .nil)) .nil)).elements = [] ∧
     (_generate_page_schema (.cons (.elem "p" [] (.cons (.textNode "hi") .nil)) .nil)).lists = [] ∧
     (_generate_page_schema (.cons (.elem "p" [] (.cons (.textNode "hi") .nil)) .nil)).tables = []) :=
  ⟨rfl, rfl, rfl, schema_empty_when_plain _ rfl rfl rfl⟩

/-- Tables of a document, in document order (the pass of lines 79-84). -/
def tablesOf (soup : Doc) : List Node :=
  NodeList.findAll (fun n => n.tagIs "table") soup

/-- Total row count of one table: its tr descendants. -/
def tableRowCount (tb : Node) : Nat :=
  (Node.findDescendants (fun n => n.tagIs "tr") tb).length

/-- Whether a table has any header cell (th descendant). -/
def tableHasHeaderCells (tb : Node) : Bool :=
  !(Node.findDescendants (fun n => n.tagIs "th") tb).isEmpty

/-- C6: the schema entry generated for the i-th table has
rows_count = total tr count - 1 exactly when the table has a th header
cell, and rows_count = total tr count when it has none. -/
theorem table_row_count_rule (soup : Doc) (tb : Node) (entry : TableInfo) (i : Nat)
    (ht : (tablesOf soup).get? i = some tb)
    (he : ((_generate_page_schema soup).tables).get? i = some entry) :
    (tableHasHeaderCells tb = true → entry.rows_count = (tableRowCount tb : Int) - 1) ∧
    (tableHasHeaderCells tb = false → entry.rows_count = (tableRowCount tb : Int)) := by
  have hmap : (_generate_page_schema soup).tables = (tablesOf soup).map (fun tb =>
      ({ headers := (Node.findDescendants (fun n => n.tagIs "th") tb).map Node.getText
         rows_count :=
           if ((Node.findDescendants (fun n => n.tagIs "th") tb).map Node.getText).isEmpty then
             ((Node.findDescendants (fun n => n.tagIs "tr") tb).length : Int)
           else ((Node.findDescendants (fun n => n.tagIs "tr") tb).length : Int) - 1 } :
        TableInfo)) := rfl
  rw [hmap, List.get?_map, ht] at he
  have he2 := Option.some.inj he
  subst he2
  constructor
  · intro hh
    have hl : (Node.findDescendants (fun n => n.tagIs "th") tb).isEmpty = false := by
      simpa [tableHasHeaderCells] using hh
    have hme : ((Node.findDescendants (fun n => n.tagIs "th") tb).map Node.getText).isEmpty
        = false := by
      cases hc : Node.findDescendants (fun n => n.tagIs "th") tb with
      | nil => rw [hc] at hl; simp at hl
      | cons a l => simp [hc]
    show (if ((Node.findDescendants (fun n => n.tagIs "th") tb).map Node.getText).isEmpty then
        ((Node.findDescendants (fun n => n.tagIs "tr") tb).length : Int)
      else ((Node.findDescendants (fun n => n.tagIs "tr") tb).length : Int) - 1) =
      (tableRowCount tb : Int) - 1
    rw [hme]
    simp [tableRowCount]
  · intro hh
    have hl : (Node.findDescendants (fun n => n.tagIs "th") tb).isEmpty = true := by
      simpa [tableHasHeaderCells] using hh
    have hme : ((Node.findDescendants (fun n => n.tagIs "th") tb).map Node.getText).isEmpty
        = true := by
      cases hc : Node.findDescendants (fun n => n.tagIs "th") tb with
      | nil => simp [hc]
      | cons a l => rw [hc] at hl; simp at hl
    show (if ((Node.findDescendants (fun n => n.tagIs "th") tb).map Node.getText).isEmpty then
        ((Node.findDescendants (fun n => n.tagIs "tr") tb).length : Int)
      else ((Node.findDescendants (fun n => n.tagIs "tr") tb).length : Int) - 1) =
      (tableRowCount tb : Int)
    rw [hme]
    simp [tableRowCount]

/-- Concrete table node for the C6 witness: one header row, one data row. -/
def tableNodeC6 : Node :=
  .elem "table" []
    (.cons (.elem "tr" [] (.cons (.elem "th" [] (.cons (.textNode "h") .nil)) .nil))
      (.cons (.elem "tr" [] (.cons (.elem "td" [] (.cons (.textNode "x") .nil)) .nil)) .nil))

/-- Document holding the C6 witness table. -/
def tableDocC6 : Doc := .cons tableNodeC6 .nil

/-- Witness for C6 on a two-row table with a header cell. -/
theorem table_row_count_rule_witness :
    (tablesOf tableDocC6).get? 0 = some tableNodeC6 ∧
    ((_generate_page_schema tableDocC6).tables).get? 0 =
      some { headers := ["h"], rows_count := 1 } ∧
    (tableHasHeaderCells tableNodeC6 = true →
      ({ headers := ["h"], rows_count := 1 } : TableInfo).rows_count =
        (tableRowCount tableNodeC6 : Int) - 1) ∧
    (tableHasHeaderCells tableNodeC6 = false →
      ({ headers := ["h"], rows_count := 1 } : TableInfo).rows_count =
        (tableRowCount tableNodeC6 : Int)) :=
  ⟨rfl, rfl,
    (table_row_count_rule tableDocC6 tableNodeC6 _ 0 rfl rfl).1,
    (table_row_count_rule tableDocC6 tableNodeC6 _ 0 rfl rfl).2⟩

/-- Document for the C5 counterexample: an article with long text before
a div with short text, no main landmark anywhere. -/
def mainDocC5 : Doc :=
  .cons (.elem "article" [] (.cons (.textNode "aaaa") .nil))
    (.cons (.elem "div" [] (.cons (.textNode "b") .nil)) .nil)

/-- C5 counterexample: with an article (text length 4) and a div (text
length 1) and no main landmark, the code returns the div text because the
loop over article/section/div lets the last tag with any occurrence
overwrite the earlier maximum, while the claimed all-tags-together
maximum is the article text. -/
theorem main_content_counterexample :
    _identify_main_content mainDocC5 = some "b" ∧
    claimedMainContent mainDocC5 = some "aaaa" ∧
    (some "b" : Option String) ≠ some "aaaa" :=
  ⟨rfl, rfl, by decide⟩

/-- C5 amended: with no main landmark, the main content is the text of
the largest-by-text-length div when any div exists; otherwise of the
largest section; otherwise of the largest article; ties keep the first
occurrence in document order within that one tag; when none of the three
tags occurs, main content is absent. -/
theorem identify_main_fallback (soup : Doc)
    (h1 : NodeList.findAll (fun n => n.tagIs "main") soup = [])
    (h2 : NodeList.findAll (fun n => n.attrGet "id" == some "main") soup = [])
    (h3 : NodeList.findAll (fun n => (n.classes).contains "main") soup = []) :
    (∀ c cs, NodeList.findAll (fun n => n.tagIs "div") soup = c :: cs →
      _identify_main_content soup =
        some (pyMaxBy (fun n => n.getText.length) c cs).getText) ∧
    (NodeList.findAll (fun n => n.tagIs "div") soup = [] →
      ∀ c cs, NodeList.findAll (fun n => n.tagIs "section") soup = c :: cs →
        _identify_main_content soup =
          some (pyMaxBy (fun n => n.getText.length) c cs).getText) ∧
    (NodeList.findAll (fun n => n.tagIs "div") soup = [] →
      NodeList.findAll (fun n => n.tagIs "section") soup = [] →
      ∀ c cs, NodeList.findAll (fun n => n.tagIs "article") soup = c :: cs →
        _identify_main_content soup =
          some (pyMaxBy (fun n => n.getText.length) c cs).getText) ∧
    (NodeList.findAll (fun n => n.tagIs "div") soup = [] →
      NodeList.findAll (fun n => n.tagIs "section") soup = [] →
      NodeList.findAll (fun n => n.tagIs "article") soup = [] →
      _identify_main_content soup = none) := by
  have hbase : _identify_main_content soup =
      (["article", "section", "div"].foldl (fun acc tg =>
        match NodeList.findAll (fun n => n.tagIs tg) soup with
        | [] => acc
        | c :: cs => some (pyMaxBy (fun n => n.getText.length) c cs)) none).map
        Node.getText := by
    simp only [_identify_main_content, NodeList.findFirst, h1, h2, h3, List.head?_nil,
      Option.orElse]
  simp only [List.foldl_cons, List.foldl_nil] at hbase
  refine ⟨?_, ?_, ?_, ?_⟩
  · intro c cs hdiv
    rw [hbase, hdiv]
    rfl
  · intro hdiv c cs hsec
    rw [hbase, hdiv, hsec]
    rfl
  · intro hdiv hsec c cs hart
    rw [hbase, hdiv, hsec, hart]
    rfl
  · intro hdiv hsec hart
    rw [hbase, hdiv, hsec, hart]
    rfl

/-- Document for the C5 amended witness: a single section, no div. -/
def secDocC5 : Doc := .cons (.elem "section" [] (.cons (.textNode "s") .nil)) .nil

/-- Witness for the amended C5 theorem: the lone section is chosen. -/
theorem identify_main_fallback_witness :
    NodeList.findAll (fun n => n.tagIs "main") secDocC5 = [] ∧
    NodeList.findAll (fun n => n.attrGet "id" == some "main") secDocC5 = [] ∧
    NodeList.findAll (fun n => (n.classes).contains "main") secDocC5 = [] ∧
    _identify_main_content secDocC5 = some "s" :=
  ⟨rfl, rfl, rfl, (identify_main_fallback secDocC5 rfl rfl rfl).2.1 rfl _ _ rfl⟩

/-- Selector object of the documented inference-response shape. -/
def sampleSelector : Json :=
  .obj [("type", .str "css"), ("selector", .str ".t"),
    ("attribute", .str "text"), ("description", .str "d")]

/-- Inference payload of exactly the shape the prompt of lines 127-139
instructs the collaborator to return: a selectors array plus empty
preprocessing and postprocessing arrays. -/
def samplePayload : Json :=
  .obj [("selectors", .arr [sampleSelector]), ("preprocessing", .arr []),
    ("postprocessing", .arr [])]

/-- Config produced by registering samplePayload. -/
def bugConfig : EndpointConfig :=
  { url := "http://e.com", selectors := samplePayload, query := "q"
    method := "GET", parameters := { format := "json", cache_timeout := 3600 } }

/-- C1: line 103 stores the whole parsed payload object under the
selectors key of the endpoint config instead of the selectors array of the payload, although the prompt requests the wrapper object and the replay
loop of execute_scraping expects a list of selector objects; replaying
the endpoint then iterates the keys of the wrapper object and dies with a TypeError
on the first string subscript.  So the stored selectors value differs
from the selectors array for every payload of the documented shape. -/
theorem selectors_field_stores_whole_payload :
    generate_api_endpoint (fun _ => 0) [] "http://e.com" "q" samplePayload =
      .ok ("scrape_e_com_0", bugConfig, [("scrape_e_com_0", bugConfig)]) ∧
    bugConfig.selectors = samplePayload ∧
    samplePayload ≠ Json.arr [sampleSelector] ∧
    execute_scraping [("scrape_e_com_0", bugConfig)] (fun _ => .ok .nil)
      (fun _ _ => []) (fun _ _ => []) "scrape_e_com_0" = .error .typeError :=
  ⟨rfl, rfl, fun h => Json.noConfusion h, rfl⟩


lemma appendIfTruthy_value_nonempty (sel : Json) (vr : Except PyErr (Option String))
    (entry : ExtractionEntry) (h : appendIfTruthy sel vr = .ok (some entry)) :
    entry.value ≠ "" := by
  cases vr with
  | error e => simp [appendIfTruthy] at h
  | ok o =>
    cases o with
    | none => simp [appendIfTruthy] at h
    | some v =>
      by_cases hv : v = ""
      · simp [appendIfTruthy, hv] at h
      · rw [appendIfTruthy] at h
        rw [if_neg hv] at h
        cases hd : sel.subscript "description" with
        | error e => rw [hd] at h; exact absurd h (by simp)
        | ok d =>
          rw [hd] at h
          simp only [Except.ok.injEq, Option.some.injEq] at h
          rw [← h]
          exact hv

lemma processElement_value_nonempty (sel : Json) (el : MatchedElem)
    (entry : ExtractionEntry) (h : processElement sel el = .ok (some entry)) :
    entry.value ≠ "" := by
  cases ha : sel.subscript "attribute" with
  | error e => rw [processElement, ha] at h; exact absurd h (by simp)
  | ok attrJ =>
    rw [processElement, ha] at h
    exact appendIfTruthy_value_nonempty sel _ entry h

lemma collectEntries_values_nonempty (sel : Json) (es : List MatchedElem)
    (entries : List ExtractionEntry) (h : collectEntries sel es = .ok entries) :
    ∀ x ∈ entries, x.value ≠ "" := by
  induction es generalizing entries with
  | nil =>
    rw [collectEntries] at h
    simp only [Except.ok.injEq] at h
    subst h
    intro x hx
    exact absurd hx (List.not_mem_nil x)
  | cons e t ih =>
    rw [collectEntries] at h
    cases hp : processElement sel e with
    | error er => rw [hp] at h; exact absurd h (by simp)
    | ok r =>
      rw [hp] at h
      cases hc : collectEntries sel t with
      | error er => rw [hc] at h; exact absurd h (by simp)
      | ok rest =>
        rw [hc] at h
        cases r with
        | some entry =>
          simp only [Except.ok.injEq] at h
          subst h
          intro x hx
          rcases List.mem_cons.mp hx with hx1 | hx2
          · subst hx1; exact processElement_value_nonempty sel e x hp
          · exact ih rest hc x hx2
        | none =>
          simp only [Except.ok.injEq] at h
          subst h
          exact ih _ hc

lemma runSelector_values_nonempty (doc : Doc) (select : Doc → String → List Node)
    (textMatch : Doc → String → List String) (sel : Json)
    (entries : List ExtractionEntry)
    (h : runSelector doc select textMatch sel = .ok entries) :
    ∀ x ∈ entries, x.value ≠ "" := by
  rw [runSelector] at h
  cases ht : sel.subscript "type" with
  | error e => rw [ht] at h; exact absurd h (by simp)
  | ok t =>
    simp only [ht] at h
    cases hel : selectorElements doc select textMatch sel t with
    | error e => simp only [hel] at h; exact absurd h (by simp)
    | ok elements =>
      simp only [hel] at h
      exact collectEntries_values_nonempty sel elements entries h

lemma runSelectors_values_nonempty (doc : Doc) (select : Doc → String → List Node)
    (textMatch : Doc → String → List String) (sels : List Json)
    (entries : List ExtractionEntry)
    (h : runSelectors doc select textMatch sels = .ok entries) :
    ∀ x ∈ entries, x.value ≠ "" := by
  induction sels generalizing entries with
  | nil =>
    rw [runSelectors] at h
    simp only [Except.ok.injEq] at h
    subst h
    intro x hx
    exact absurd hx (List.not_mem_nil x)
  | cons s t ih =>
    rw [runSelectors] at h
    cases hs : runSelector doc select textMatch s with
    | error e => rw [hs] at h; exact absurd h (by simp)
    | ok es =>
      rw [hs] at h
      cases hr : runSelectors doc select textMatch t with
      | error e => rw [hr] at h; exact absurd h (by simp)
      | ok rest =>
        rw [hr] at h
        simp only [Except.ok.injEq] at h
        subst h
        intro x hx
        rcases List.mem_append.mp hx with hx1 | hx2
        · exact runSelector_values_nonempty doc select textMatch s es hs x hx1
        · exact ih rest hr x hx2

/-- C7: whenever execute_scraping succeeds, every entry of the produced
extraction result has a non-empty value: a matched element whose text or
attribute comes out empty or undefined is silently skipped, never
reported. -/
theorem execute_scraping_values_nonempty (reg : List (String × EndpointConfig))
    (fetch : String → Except PyErr Doc) (select : Doc → String → List Node)
    (textMatch : Doc → String → List String) (endpoint_id : String)
    (entries : List ExtractionEntry)
    (h : execute_scraping reg fetch select textMatch endpoint_id = .ok entries) :
    ∀ x ∈ entries, x.value ≠ "" := by
  rw [execute_scraping] at h
  cases hg : dictGet reg endpoint_id with
  | none => rw [hg] at h; exact absurd h (by simp)
  | some config =>
    simp only [hg] at h
    cases hf : fetch config.url with
    | error e => simp only [hf] at h; exact absurd h (by simp)
    | ok doc =>
      simp only [hf] at h
      cases hi : config.selectors.pyIterate with
      | error e => simp only [hi] at h; exact absurd h (by simp)
      | ok sels =>
        simp only [hi] at h
        exact runSelectors_values_nonempty doc select textMatch sels entries h

/-- Selector used by the C7 witness: extracts the href attribute. -/
def hrefSelector : Json :=
  .obj [("type", .str "css"), ("selector", .str "a"),
    ("attribute", .str "href"), ("description", .str "link")]

/-- Registered config for the C7 witness. -/
def cfgC7 : EndpointConfig :=
  { url := "http://e.com", selectors := Json.arr [hrefSelector], query := "q"
    method := "GET", parameters := { format := "json", cache_timeout := 3600 } }

/-- Element returned by the CSS-match collaborator in the C7 witness. -/
def aNodeC7 : Node := .elem "a" [("href", "http://x")] .nil

/-- Witness for C7: a successful extraction producing one entry. -/
theorem execute_scraping_values_nonempty_witness :
    execute_scraping [("id1", cfgC7)] (fun _ => .ok .nil) (fun _ _ => [aNodeC7])
      (fun _ _ => []) "id1" = .ok [{ kind := .str "link", value := "http://x" }] ∧
    ∀ x ∈ [({ kind := .str "link", value := "http://x" } : ExtractionEntry)], x.value ≠ "" :=
  ⟨rfl, execute_scraping_values_nonempty [("id1", cfgC7)] (fun _ => .ok .nil)
    (fun _ _ => [aNodeC7]) (fun _ _ => []) "id1"
    [{ kind := .str "link", value := "http://x" }] rfl⟩

/-- Invariant carried through the cache model of claim C8: the cache has
distinct keys and holds the entry (u, v), and every key more recent than
u belongs to the finite set D of urls analyzed since u was. -/
def cacheHolds (u : String) (v : PageStructure) (D : Finset String)
    (c : SchemaCache) : Prop :=
  ((c.map Prod.fst).Nodup) ∧
  ∃ pre post, c = pre ++ (u, v) :: post ∧ ∀ k ∈ pre.map Prod.fst, k ∈ D

lemma cacheFind_of_decomp (u : String) (v : PageStructure) :
    ∀ (pre post : SchemaCache),
      (((pre ++ (u, v) :: post).map Prod.fst).Nodup) →
      cacheFind (pre ++ (u, v) :: post) u = some (u, v) := by
  intro pre
  induction pre with
  | nil =>
    intro post _
    simp [cacheFind, List.find?]
  | cons a pre ih =>
    intro post hn
    simp only [List.cons_append, List.map_cons, List.nodup_cons] at hn
    have hmem : u ∈ ((pre ++ (u, v) :: post).map Prod.fst) := by simp
    have hab : (a.1 == u) = false := by
      rw [Bool.eq_false_iff]
      intro hceq
      rw [beq_iff_eq] at hceq
      exact hn.1 (hceq ▸ hmem)
    have htail := ih post hn.2
    rw [cacheFind] at htail ⊢
    rw [List.cons_append]
    simp only [List.find?, hab]
    exact htail

lemma keys_nodup_of_filter (c : SchemaCache) (w : String)
    (hn : (c.map Prod.fst).Nodup) :
    ((c.filter (fun p => p.1 != w)).map Prod.fst).Nodup :=
  List.Nodup.sublist (List.Sublist.map Prod.fst (List.filter_sublist c)) hn

lemma not_mem_filter_keys (c : SchemaCache) (w : String) :
    w ∉ (c.filter (fun p => p.1 != w)).map Prod.fst := by
  intro hmem
  rw [List.mem_map] at hmem
  obtain ⟨p, hp, hp1⟩ := hmem
  have hcond := List.of_mem_filter hp
  rw [hp1, bne_self_eq_false] at hcond
  exact Bool.false_ne_true hcond

lemma analyzeStep_preserves (fp : String → Doc) (u : String) (v : PageStructure)
    (D : Finset String) (c : SchemaCache) (w : String)
    (hold : cacheHolds u v D c) (hcard : (insert w D).card ≤ 99) :
    cacheHolds u v (insert w D) (analyze_page_structure fp c w).2.1 := by
  obtain ⟨hn, pre, post, hdec, hpre⟩ := hold
  by_cases hw : w = u
  · subst hw
    have hfind : cacheFind c w = some (w, v) := by
      rw [hdec]; exact cacheFind_of_decomp w v pre post (hdec ▸ hn)
    simp only [analyze_page_structure, hfind]
    refine ⟨?_, [], c.filter (fun p => p.1 != w), by simp, by simp⟩
    simp only [List.map_cons, List.nodup_cons]
    exact ⟨not_mem_filter_keys c w, keys_nodup_of_filter c w hn⟩
  · cases hfind : cacheFind c w with
    | some pv =>
      simp only [analyze_page_structure, hfind]
      have huv : ((u, v).1 != w) = true := by
        simp only [bne_iff_ne, ne_eq]
        exact fun hc => hw hc.symm
      have hfil : c.filter (fun p => p.1 != w) =
          pre.filter (fun p => p.1 != w) ++ (u, v) :: post.filter (fun p => p.1 != w) := by
        rw [hdec, List.filter_append, List.filter_cons, if_pos huv]
      refine ⟨?_, (w, pv.2) :: pre.filter (fun p => p.1 != w),
        post.filter (fun p => p.1 != w), ?_, ?_⟩
      · simp only [List.map_cons, List.nodup_cons]
        exact ⟨not_mem_filter_keys c w, keys_nodup_of_filter c w hn⟩
      · rw [hfil, List.cons_append]
      · intro k hk
        simp only [List.map_cons, List.mem_cons] at hk
        rcases hk with rfl | hk
        · exact Finset.mem_insert_self k D
        · rw [List.mem_map] at hk
          obtain ⟨p, hp, rfl⟩ := hk
          exact Finset.mem_insert_of_mem
            (hpre p.1 (List.mem_map_of_mem Prod.fst (List.mem_of_mem_filter hp)))
    | none =>
      simp only [analyze_page_structure, hfind]
      have hnotin : ∀ p ∈ c, (p.1 == w) = false := by
        intro p hp
        have := List.find?_eq_none.mp hfind p hp
        rwa [Bool.not_eq_true] at this
      have hwkeys : w ∉ c.map Prod.fst := by
        intro hmem
        rw [List.mem_map] at hmem
        obtain ⟨p, hp, hp1⟩ := hmem
        have := hnotin p hp
        rw [hp1, beq_self_eq_true] at this
        exact Bool.false_ne_true this.symm
      have hprenodup : (pre.map Prod.fst).Nodup := by
        have hsub : List.Sublist pre c := by
          rw [hdec]; exact List.sublist_append_left pre ((u, v) :: post)
        exact List.Nodup.sublist (List.Sublist.map Prod.fst hsub) hn
      have hpresub : ∀ k ∈ pre.map Prod.fst, k ∈ D.erase w := by
        intro k hk
        rw [Finset.mem_erase]
        refine ⟨?_, hpre k hk⟩
        rw [List.mem_map] at hk
        obtain ⟨p, hp, hp1⟩ := hk
        have hpc : p ∈ c := by
          rw [hdec]; exact List.mem_append_left _ hp
        have := hnotin p hpc
        intro hkw
        rw [hp1, hkw, beq_self_eq_true] at this
        exact Bool.false_ne_true this.symm
      have hlen : pre.length ≤ 98 := by
        have h1 : pre.length = (pre.map Prod.fst).length := (List.length_map _ _).symm
        have h2 : (pre.map Prod.fst).length = (pre.map Prod.fst).toFinset.card :=
          (List.toFinset_card_of_nodup hprenodup).symm
        have h3 : (pre.map Prod.fst).toFinset ⊆ D.erase w := by
          intro x hx
          rw [List.mem_toFinset] at hx
          exact hpresub x hx
        have h4 : (D.erase w).card ≤ ((insert w D).erase w).card :=
          Finset.card_le_card (Finset.erase_subset_erase w (Finset.subset_insert w D))
        have h5 : ((insert w D).erase w).card = (insert w D).card - 1 :=
          Finset.card_erase_of_mem (Finset.mem_insert_self w D)
        have h6 : (pre.map Prod.fst).toFinset.card ≤ (D.erase w).card :=
          Finset.card_le_card h3
        omega
      have hdec2 : ((w, page_structure_of (fp w)) :: c).take 100 =
          (w, page_structure_of (fp w)) :: pre ++ (u, v) :: post.take (98 - pre.length) := by
        rw [hdec, ← List.cons_append, List.take_append_eq_append_take]
        have hl1 : ((w, page_structure_of (fp w)) :: pre).length ≤ 100 := by
          simp only [List.length_cons]; omega
        rw [List.take_of_length_le hl1]
        have hlr : 100 - ((w, page_structure_of (fp w)) :: pre).length =
            (98 - pre.length) + 1 := by
          simp only [List.length_cons]; omega
        rw [hlr, List.take_succ_cons]
      refine ⟨?_, (w, page_structure_of (fp w)) :: pre, post.take (98 - pre.length), hdec2, ?_⟩
      · have hsub : List.Sublist (((w, page_structure_of (fp w)) :: c).take 100)
            ((w, page_structure_of (fp w)) :: c) := List.take_sublist _ _
        have hnodup2 : (((w, page_structure_of (fp w)) :: c).map Prod.fst).Nodup := by
          simp only [List.map_cons, List.nodup_cons]
          exact ⟨hwkeys, hn⟩
        exact List.Nodup.sublist (List.Sublist.map Prod.fst hsub) hnodup2
      · intro k hk
        simp only [List.map_cons, List.mem_cons] at hk
        rcases hk with rfl | hk
        · exact Finset.mem_insert_self k D
        · exact Finset.mem_insert_of_mem (hpre k hk)

lemma runAnalyses_preserves (fp : String → Doc) (u : String) (v : PageStructure) :
    ∀ (ws : List String) (D : Finset String) (c : SchemaCache),
      cacheHolds u v D c → (D ∪ ws.toFinset).card ≤ 99 →
      cacheHolds u v (D ∪ ws.toFinset) (runAnalyses fp c ws) := by
  intro ws
  induction ws with
  | nil =>
    intro D c hold hcard
    simpa [runAnalyses] using hold
  | cons w t ih =>
    intro D c hold hcard
    have hins : insert w D ⊆ D ∪ (w :: t).toFinset := by
      rw [List.toFinset_cons]
      intro x hx
      rcases Finset.mem_insert.mp hx with rfl | hx2
      · exact Finset.mem_union_right D (Finset.mem_insert_self x t.toFinset)
      · exact Finset.mem_union_left _ hx2
    have h1 : (insert w D).card ≤ 99 := le_trans (Finset.card_le_card hins) hcard
    have hstep := analyzeStep_preserves fp u v D c w hold h1
    have hEq : insert w D ∪ t.toFinset = D ∪ (w :: t).toFinset := by
      rw [List.toFinset_cons, Finset.insert_union, Finset.union_insert]
    have h2 : (insert w D ∪ t.toFinset).card ≤ 99 := by rw [hEq]; exact hcard
    have hrec := ih (insert w D) ((analyze_page_structure fp c w).2.1) hstep h2
    rw [hEq] at hrec
    simp only [runAnalyses, List.foldl_cons] at hrec ⊢
    exact hrec

/-- C8: starting from any well-formed cache state not holding the url,
analyzing the url, then analyzing any urls spanning at most 99 distinct
values, then analyzing the url again: the second analysis of the url
returns the same PageStructure value and performs no underlying fetch and
parse, while the first did exactly one (the decorator is keyed by the url
alone and evicts least-recently-used entries only beyond the 100-entry
capacity). -/
theorem analyze_twice_cached (fp : String → Doc) (c0 : SchemaCache) (u : String)
    (ws : List String)
    (hn : ((c0.map Prod.fst).Nodup))
    (hmiss : cacheFind c0 u = none)
    (hcard : ws.toFinset.card ≤ 99) :
    (analyze_page_structure fp
        (runAnalyses fp (analyze_page_structure fp c0 u).2.1 ws) u).1 =
      (analyze_page_structure fp c0 u).1 ∧
    (analyze_page_structure fp c0 u).2.2 = true ∧
    (analyze_page_structure fp
        (runAnalyses fp (analyze_page_structure fp c0 u).2.1 ws) u).2.2 = false := by
  have hfirst : analyze_page_structure fp c0 u =
      (page_structure_of (fp u),
        ((u, page_structure_of (fp u)) :: c0).take 100, true) := by
    simp only [analyze_page_structure, hmiss]
  have hwkeys : u ∉ c0.map Prod.fst := by
    intro hmem
    rw [List.mem_map] at hmem
    obtain ⟨p, hp, hp1⟩ := hmem
    have h2 := List.find?_eq_none.mp hmiss p hp
    apply h2
    rw [hp1]
    exact beq_self_eq_true u
  have hold1 : cacheHolds u (page_structure_of (fp u)) ∅
      (((u, page_structure_of (fp u)) :: c0).take 100) := by
    constructor
    · have hsub : List.Sublist (((u, page_structure_of (fp u)) :: c0).take 100)
          ((u, page_structure_of (fp u)) :: c0) := List.take_sublist _ _
      have hful : (((u, page_structure_of (fp u)) :: c0).map Prod.fst).Nodup := by
        simp only [List.map_cons, List.nodup_cons]
        exact ⟨hwkeys, hn⟩
      exact List.Nodup.sublist (List.Sublist.map Prod.fst hsub) hful
    · refine ⟨[], c0.take 99, ?_, by simp⟩
      rw [show (100 : Nat) = 99 + 1 from rfl, List.take_succ_cons, List.nil_append]
  have hrun := runAnalyses_preserves fp u (page_structure_of (fp u)) ws ∅ _ hold1
    (by simpa using hcard)
  rw [Finset.empty_union] at hrun
  obtain ⟨hn2, pre2, post2, hdec2, _⟩ := hrun
  have hfind2 : cacheFind
      (runAnalyses fp (((u, page_structure_of (fp u)) :: c0).take 100) ws) u =
      some (u, page_structure_of (fp u)) := by
    rw [hdec2]
    exact cacheFind_of_decomp u (page_structure_of (fp u)) pre2 post2 (hdec2 ▸ hn2)
  have e1 : (analyze_page_structure fp c0 u).2.1 =
      ((u, page_structure_of (fp u)) :: c0).take 100 := by rw [hfirst]
  have e2 : (analyze_page_structure fp c0 u).1 = page_structure_of (fp u) := by
    rw [hfirst]
  have e3 : (analyze_page_structure fp c0 u).2.2 = true := by rw [hfirst]
  refine ⟨?_, e3, ?_⟩
  · rw [e1, e2]
    simp only [analyze_page_structure, hfind2]
  · rw [e1]
    simp only [analyze_page_structure, hfind2]

/-- Witness for C8: an empty starting cache, one other url in between. -/
theorem analyze_twice_cached_witness :
    ((([] : SchemaCache).map Prod.fst).Nodup) ∧
    cacheFind [] "http://x" = none ∧
    (["http://y"] : List String).toFinset.card ≤ 99 ∧
    ((analyze_page_structure (fun _ => NodeList.nil)
        (runAnalyses (fun _ => NodeList.nil)
          (analyze_page_structure (fun _ => NodeList.nil) [] "http://x").2.1
          ["http://y"]) "http://x").1 =
      (analyze_page_structure (fun _ => NodeList.nil) [] "http://x").1 ∧
    (analyze_page_structure (fun _ => NodeList.nil) [] "http://x").2.2 = true ∧
    (analyze_page_structure (fun _ => NodeList.nil)
        (runAnalyses (fun _ => NodeList.nil)
          (analyze_page_structure (fun _ => NodeList.nil) [] "http://x").2.1
          ["http://y"]) "http://x").2.2 = false) :=
  ⟨by simp, rfl, by simp,
    analyze_twice_cached (fun _ => NodeList.nil) [] "http://x" ["http://y"]
      (by simp) rfl (by simp)⟩
